import Mathlib

set_option maxRecDepth 8000

/-!
Verification development for the redbush REPL bridge.

The Rust sources are shallowly embedded: pure logic becomes Lean functions,
stateful senders/receivers become explicit state-passing, socket reads are
modelled by passing the decoded value (the low-level EDN / framed-binary
tokenizers are external library crates, assumed correct, so functions that
internally parse a string take the parse result, or a parse oracle, as an
argument).  A Rust function that can panic is embedded with result type
`Option _`, where `none` models the panic (an `unwrap` of `None`).
-/

/-- Association-list find: models `HashMap::get` / `BTreeMap::get` (first
entry whose key equals `k`; maps built by `insert` keep keys unique). -/
def alFind {α β : Type} [DecidableEq α] : List (α × β) → α → Option β
  | [], _ => none
  | e :: tl, k => if e.1 = k then some e.2 else alFind tl k

/-- Association-list insert: models `HashMap::insert` (replace the value if
the key is present, otherwise add the pair). -/
def alInsert {α β : Type} [DecidableEq α] (m : List (α × β)) (k : α) (v : β) :
    List (α × β) :=
  if (alFind m k).isSome then
    m.map (fun e => if e.1 = k then (k, v) else e)
  else m ++ [(k, v)]

/-- The keys of an association list. -/
def alKeys {α β : Type} (m : List (α × β)) : List α := m.map Prod.fst

/-- Param from src/repl.rs: a tagged value, text string or signed integer
(`i32` in the source; no arithmetic is ever done on it, so plain `Int`). -/
inductive Param where
  | str : String → Param
  | int : Int → Param
deriving DecidableEq, Repr

/-- Request payload mapping, `HashMap<Param, Param>` in src/repl.rs. -/
abbrev PMap := List (Param × Param)

/-- Request from src/repl.rs. -/
inductive Request where
  | Eval : PMap → Request
  | Interrupt : PMap → Request
  | NewSession : Request
  | DisableNsMaps : Request
  | Exit : Request
deriving DecidableEq, Repr

/-- Response from src/repl.rs (`Value(value, ns, ms, form)`). -/
inductive Response where
  | Value : String → String → Nat → String → Response
  | Err : String → Response
  | Out : String → Response
  | Exception : String → String → Response
  | Status : List String → Response
  | NewSession : String → Response
  | Eof : Response
  | Other : String → Response
deriving DecidableEq, Repr

/-- ReplError from src/repl.rs; the payload of the `Io` variant is kept as
the error's message text. -/
inductive ReplError where
  | Error : String → ReplError
  | IoErr : String → ReplError
deriving DecidableEq, Repr

/-- `Display for ReplError` from src/repl.rs (note the trailing space the
source prints after an `Error` message). -/
def ReplError.display : ReplError → String
  | .Error s => "Repl Error: " ++ s ++ " "
  | .IoErr s => "Repl Io: " ++ s

/-- Numeric value of a decimal digit character, `c as u32 - '0' as u32`. -/
def charVal (c : Char) : Nat := c.toNat - '0'.toNat

/-- Decimal digits of `n`, most significant first, by fuelled division
(the fuel only needs to be at least `n`). -/
def natCharsAux : Nat → Nat → List Char
  | 0, _ => []
  | _ + 1, 0 => []
  | f + 1, n + 1 =>
    natCharsAux f ((n + 1) / 10) ++ [Nat.digitChar ((n + 1) % 10)]

/-- Decimal rendering of a natural number, as `usize::to_string` prints it. -/
def natChars (n : Nat) : List Char :=
  if n = 0 then ['0'] else natCharsAux n n

/-- Decimal rendering of a signed integer, as `i64::to_string` prints it. -/
def intChars (i : Int) : List Char :=
  if i < 0 then '-' :: natChars i.natAbs else natChars i.toNat

/-- Rust `str::trim`: drop whitespace from both ends (the source strings are
ASCII, so `Char.isWhitespace` coincides with Rust's trimming there). -/
def trimChars (cs : List Char) : List Char :=
  ((cs.dropWhile Char.isWhitespace).reverse.dropWhile Char.isWhitespace).reverse

/-- Rust `str::trim` on `String`. -/
def rustTrim (s : String) : String := String.mk (trimChars s.data)

/-- Fuelled worker for `rustReplace`; replaces non-overlapping occurrences
left to right, as Rust `str::replace` does. -/
def replaceAllAux : Nat → List Char → List Char → List Char → List Char
  | 0, cs, _, _ => cs
  | f + 1, cs, pat, rep =>
    match cs with
    | [] => []
    | c :: tl =>
      if pat ≠ [] && pat.isPrefixOf cs then
        rep ++ replaceAllAux f (cs.drop pat.length) pat rep
      else c :: replaceAllAux f tl pat rep

/-- Rust `str::replace`. -/
def rustReplace (s pat rep : String) : String :=
  String.mk (replaceAllAux s.data.length s.data pat.data rep.data)

/-- Split a character list at newline characters (for stating the
line-structure of decoded exception text). -/
def splitNl : List Char → List (List Char)
  | [] => [[]]
  | c :: tl =>
    if c = '\n' then [] :: splitNl tl
    else
      match splitNl tl with
      | [] => [[c]]
      | h :: t => (c :: h) :: t

/-- The lines of a string, split at newline characters. -/
def linesOf (s : String) : List String := (splitNl s.data).map String.mk

/-- Rust `i64 as usize` cast: two's-complement wrap into `[0, 2^64)`. -/
def i64_as_usize (i : Int) : Nat := (i % (2 ^ 64)).toNat

/-- EDN values as decoded by the external `edn` crate (the variants the
source ever inspects; everything else is covered by `nil`, which no branch
of the embedded code matches). -/
inductive Edn where
  | string : String → Edn
  | symbol : String → Edn
  | keyword : String → Edn
  | integer : Int → Edn
  | boolean : Bool → Edn
  | nil : Edn
  | vector : List Edn → Edn
  | map : List (Edn × Edn) → Edn

/-- EDN equality restricted to the case where one side is atomic.  Every map
lookup performed by the source uses an atomic key (a keyword), and an atom
is never equal to a vector or map, so this coincides with the `edn` crate's
full value equality on every lookup the embedded code performs. -/
def ednKeyEq : Edn → Edn → Bool
  | Edn.string a, Edn.string b => a == b
  | Edn.symbol a, Edn.symbol b => a == b
  | Edn.keyword a, Edn.keyword b => a == b
  | Edn.integer a, Edn.integer b => a == b
  | Edn.boolean a, Edn.boolean b => a == b
  | Edn.nil, Edn.nil => true
  | _, _ => false

/-- `BTreeMap::get` for EDN maps (atomic lookup keys only, see `ednKeyEq`). -/
def ednFind : List (Edn × Edn) → Edn → Option Edn
  | [], _ => none
  | e :: tl, k => if ednKeyEq e.1 k then some e.2 else ednFind tl k

/-- src/repl.rs `parse_exception`: the EDN tokenizer is an external crate,
so this embedding takes the result of `Parser::read()` (`none` when the
parser yields no value, e.g. on an empty string).  The Rust function calls
`.unwrap()` on that read and on the `:via` and `:trace` map lookups; a
result of `none` here models the panic those unwraps raise. -/
def parse_exception (readResult : Option (Except String Edn)) :
    Option (String × String) :=
  match readResult with
  | none => none
  | some ednVal =>
    match ednVal with
    | Except.ok (Edn.map m) =>
      match ednFind m (Edn.keyword "via") with
      | none => none
      | some viaVal =>
        let errmsg : String :=
          match viaVal with
          | Edn.vector vec =>
            vec.foldl (fun acc v =>
              match v with
              | Edn.map mm =>
                match ednFind mm (Edn.keyword "message") with
                | some (Edn.string s) => acc ++ s ++ "\n"
                | _ => acc
              | _ => acc) ""
          | _ => ""
        match ednFind m (Edn.keyword "trace") with
        | none => none
        | some traceVal =>
          let trace : String :=
            match traceVal with
            | Edn.vector vec =>
              vec.foldl (fun acc frame =>
                match frame with
                | Edn.vector toks =>
                  let acc2 := toks.foldl (fun a t =>
                    match t with
                    | Edn.symbol s => a ++ s ++ " "
                    | Edn.string s => a ++ s ++ " "
                    | Edn.integer i => a ++ String.mk (intChars i) ++ " "
                    | _ => a) acc
                  rustTrim acc2 ++ "\n"
                | _ => acc) ""
            | _ => ""
          some (trace, errmsg)
    | _ => some ("", "")

/-- PreplSender from src/prepl/mod.rs (socket handles and the dead
host/port fields are omitted from the embedding). -/
structure PreplSender where
  session_id : String
  request_cnt : Nat
deriving DecidableEq, Repr

/-- PreplReceiver from src/prepl/mod.rs. -/
structure PreplReceiver where
  session_id : String
  request_cnt : Nat
deriving DecidableEq, Repr

/-- src/prepl/mod.rs `PreplReceiver::parse_exception`: same shape as
src/repl.rs `parse_exception` but accumulating one result string, with the
fixed `"\n-- Trace --\n"` separator appended between the message block and
the trace block.  `none` models the panic of the unwraps on the parser read
and the `:via` / `:trace` lookups. -/
def PreplReceiver.parse_exception (readResult : Option (Except String Edn)) :
    Option String :=
  match readResult with
  | none => none
  | some ednVal =>
    match ednVal with
    | Except.ok (Edn.map m) =>
      match ednFind m (Edn.keyword "via") with
      | none => none
      | some viaVal =>
        let r1 : String :=
          match viaVal with
          | Edn.vector vec =>
            vec.foldl (fun acc v =>
              match v with
              | Edn.map mm =>
                match ednFind mm (Edn.keyword "message") with
                | some (Edn.string s) => acc ++ s ++ "\n"
                | _ => acc
              | _ => acc) ""
          | _ => ""
        let r2 := r1 ++ "\n-- Trace --\n"
        match ednFind m (Edn.keyword "trace") with
        | none => none
        | some traceVal =>
          let r3 : String :=
            match traceVal with
            | Edn.vector vec =>
              vec.foldl (fun acc frame =>
                match frame with
                | Edn.vector toks =>
                  let acc2 := toks.foldl (fun a t =>
                    match t with
                    | Edn.symbol s => a ++ s ++ " "
                    | Edn.string s => a ++ s ++ " "
                    | Edn.integer i => a ++ String.mk (intChars i) ++ " "
                    | _ => a) acc
                  rustTrim acc2 ++ "\n"
                | _ => acc) r2
            | _ => r2
          some r3
    | _ => some ""

/-- src/prepl/mod.rs `PreplReceiver::receive`.  The line read from the
socket is assumed to succeed (an I/O failure is an early `Err` return not
modelled here); `readResult` is the EDN parse of that line, and `ednRead`
is the parse oracle used for the nested exception document.  A result of
`none` models a panic: the source unwraps the `tag` lookup, and
`parse_exception` may itself panic. -/
def PreplReceiver.receive (ednRead : String → Option (Except String Edn))
    (readResult : Option (Except String Edn)) :
    Option (Except ReplError Response) :=
  match readResult with
  | some (Except.ok (Edn.map m)) =>
    match ednFind m (Edn.keyword "tag") with
    | none => none
    | some tagVal =>
      match tagVal with
      | Edn.keyword key =>
        if key = "ret" then
          let val := match ednFind m (Edn.keyword "val") with
            | some (Edn.string s) => s
            | _ => ""
          let ns := match ednFind m (Edn.keyword "ns") with
            | some (Edn.string s) => s
            | _ => ""
          let ms : Int := match ednFind m (Edn.keyword "ms") with
            | some (Edn.integer i) => i
            | _ => 0
          let form := match ednFind m (Edn.keyword "form") with
            | some (Edn.string s) => s
            | _ => ""
          let exc : Bool := match ednFind m (Edn.keyword "exception") with
            | some (Edn.boolean b) => b
            | _ => false
          if exc = true then
            match PreplReceiver.parse_exception (ednRead val) with
            | none => none
            | some tr => some (Except.ok (Response.Exception tr ""))
          else
            some (Except.ok (Response.Value val ns (i64_as_usize ms) form))
        else if key = "out" then
          let out := match ednFind m (Edn.keyword "val") with
            | some (Edn.string s) => s
            | _ => ""
          some (Except.ok (Response.Out out))
        else if key = "err" then
          let out := match ednFind m (Edn.keyword "val") with
            | some (Edn.string s) => s
            | _ => ""
          some (Except.ok (Response.Out out))
        else some (Except.ok (Response.Other key))
      | _ => some (Except.ok (Response.Other ""))
  | some (Except.error e) =>
    some (Except.error (ReplError.Error ("EDN parser Error: " ++ e)))
  | some (Except.ok _) =>
    some (Except.error (ReplError.Error
      "EDN parser Error: unexpected response from pREPL"))
  | none =>
    some (Except.error (ReplError.Error
      "EDN parser Error: trying to parse empty string"))

/-- src/prepl/mod.rs `PreplSender::send`: returns the updated sender and
the bytes written to the socket (the write itself is assumed to succeed;
the source then returns `Ok(())`, so the pure embedding is total). -/
def PreplSender.send (s : PreplSender) (req : Request) : PreplSender × String :=
  match req with
  | Request.Eval params =>
    let code := match alFind params (Param.str "code") with
      | some (Param.str c) => c ++ "\n"
      | _ => ""
    if code ≠ "" then ({ s with request_cnt := s.request_cnt + 1 }, code)
    else (s, "")
  | Request.Exit => (s, ":repl/quit\n")
  | _ => (s, "")

/-- Framed-binary values as decoded by the external `bencode_rs` crate:
string, integer, list, dictionary (src/nrepl/mod.rs works with these four). -/
inductive BValue where
  | str : String → BValue
  | int : Int → BValue
  | list : List BValue → BValue
  | map : List (BValue × BValue) → BValue

/-- Bencode-value equality restricted to the case where one side is atomic.
Every dictionary lookup and insert performed by the source uses a string
key, and an atom is never equal to a list or dictionary, so this coincides
with full value equality on every lookup the embedded code performs. -/
def bKeyEq : BValue → BValue → Bool
  | BValue.str a, BValue.str b => a == b
  | BValue.int a, BValue.int b => a == b
  | _, _ => false

/-- `HashMap::get` for framed dictionaries (string lookup keys only). -/
def bFind : List (BValue × BValue) → BValue → Option BValue
  | [], _ => none
  | e :: tl, k => if bKeyEq e.1 k then some e.2 else bFind tl k

/-- `HashMap::insert` for framed dictionaries (string keys only). -/
def bInsert (m : List (BValue × BValue)) (k v : BValue) :
    List (BValue × BValue) :=
  if (bFind m k).isSome then
    m.map (fun e => if bKeyEq e.1 k then (k, v) else e)
  else m ++ [(k, v)]

/-- The Rust pattern `if let Some(bc::Value::Str(s)) = hm.get(&key)`:
probe a framed dictionary for a key whose value is a string. -/
def strProbe (hm : List (BValue × BValue)) (k : String) : Option String :=
  match bFind hm (BValue.str k) with
  | some (BValue.str s) => some s
  | _ => none

/-- The Rust pattern `if let Some(bc::Value::List(l)) = hm.get(&key)`:
probe a framed dictionary for a key whose value is a list. -/
def listProbe (hm : List (BValue × BValue)) (k : String) :
    Option (List BValue) :=
  match bFind hm (BValue.str k) with
  | some (BValue.list l) => some l
  | _ => none

/-- The `Param` → `bc::Value` conversion done inside `build_bc_value`. -/
def paramToBc : Param → BValue
  | Param.str s => BValue.str s
  | Param.int i => BValue.int i

/-- src/nrepl/mod.rs `build_bc_value`: convert the merged `Param` map into
a framed dictionary.  The source iterates the `HashMap` and inserts into a
fresh `HashMap`; keys are unique and the conversion is injective, so the
entry list maps across unchanged. -/
def build_bc_value (hm : PMap) : BValue :=
  BValue.map (hm.map (fun e => (paramToBc e.1, paramToBc e.2)))

/-- NreplSender from src/nrepl/mod.rs (socket writer and the dead
host/port fields are omitted from the embedding). -/
structure NreplSender where
  session_id : String
  request_cnt : Nat
deriving DecidableEq, Repr

/-- NreplReceiver from src/nrepl/mod.rs. -/
structure NreplReceiver where
  session_id : String
  request_cnt : Nat
deriving DecidableEq, Repr

/-- The request dictionary built by `NreplSender::send` (src/nrepl/mod.rs,
the `match req` block followed by the `session` and `id` inserts), before
bencode encoding.  `interrupt-id` and `id` are both stamped with the
sender's current `request_cnt`. -/
def NreplSender.buildParams (s : NreplSender) (req : Request) : PMap :=
  let params :=
    match req with
    | Request.NewSession =>
      alInsert [] (Param.str "op") (Param.str "clone")
    | Request.DisableNsMaps =>
      alInsert (alInsert [] (Param.str "op") (Param.str "eval"))
        (Param.str "code") (Param.str "(set! *print-namespace-maps* false)")
    | Request.Eval p =>
      alInsert p (Param.str "op") (Param.str "eval")
    | Request.Exit =>
      alInsert [] (Param.str "op") (Param.str "close")
    | Request.Interrupt p =>
      alInsert (alInsert p (Param.str "op") (Param.str "interrupt"))
        (Param.str "interrupt-id") (Param.str (String.mk (natChars s.request_cnt)))
  let params :=
    if s.session_id ≠ "" then
      alInsert params (Param.str "session") (Param.str s.session_id)
    else params
  alInsert params (Param.str "id") (Param.str (String.mk (natChars s.request_cnt)))

/-- src/nrepl/mod.rs `NreplSender::send`: build the request dictionary,
write its encoding, increment the request counter.  The write is assumed to
succeed (failure is an I/O `Err` return); the result is the updated sender
and the frame written. -/
def NreplSender.send (s : NreplSender) (req : Request) : NreplSender × BValue :=
  ({ s with request_cnt := s.request_cnt + 1 },
   build_bc_value (s.buildParams req))

/-- src/nrepl/mod.rs `new_sender_receiver`: the TCP connect is assumed to
succeed, and `r1`, `r2`, `r3` are the results of the up to three
`receiver.receive()` calls the handshake makes (new-session response, then
the value and status responses to the ns-maps toggle). -/
def new_sender_receiver (r1 r2 r3 : Except ReplError Response) :
    Except ReplError (NreplSender × NreplReceiver) :=
  let sender0 : NreplSender := { session_id := "", request_cnt := 0 }
  let receiver0 : NreplReceiver := { session_id := "", request_cnt := 0 }
  let sender1 := (sender0.send Request.NewSession).1
  match r1 with
  | Except.ok (Response.NewSession sid) =>
    let sender2 : NreplSender := { sender1 with session_id := sid }
    let receiver2 : NreplReceiver := { receiver0 with session_id := sid }
    let sender3 := (sender2.send Request.DisableNsMaps).1
    match r2 with
    | Except.ok (Response.Value _ _ _ _) =>
      match r3 with
      | Except.ok (Response.Status vec) =>
        if vec.contains "done" then Except.ok (sender3, receiver2)
        else Except.error (ReplError.Error "Unable to disable ns-maps")
      | Except.ok _ =>
        Except.error (ReplError.Error
          "Unexpected response when trying to disable ns-maps")
      | Except.error e => Except.error (ReplError.Error e.display)
    | _ => Except.error (ReplError.Error "Failed to disable ns-maps")
  | Except.ok _ =>
    Except.error (ReplError.Error "Unexpected nREPL response for 'new session'")
  | Except.error e => Except.error e

/-- src/nrepl/mod.rs `TryFrom<bc::Value> for Response`: classify one decoded
frame by probing, in order, `new-session`, `err`, `out`, `ex` (with the
optional `nrepl.middleware.caught/throwable` rendering through
`parse_exception`), `status`, then `value` (which requires `ns`).
`ednRead` is the EDN parse oracle used by `parse_exception` on the
throwable text; a result of `none` models a panic inside that rendering. -/
def Response.tryFrom (ednRead : String → Option (Except String Edn))
    (val : BValue) : Option (Except ReplError Response) :=
  match val with
  | BValue.map hm =>
    match strProbe hm "new-session" with
    | some s => some (Except.ok (Response.NewSession s))
    | none =>
      match strProbe hm "err" with
      | some s => some (Except.ok (Response.Err s))
      | none =>
        match strProbe hm "out" with
        | some s => some (Except.ok (Response.Out s))
        | none =>
          match strProbe hm "ex" with
          | some s =>
            (match strProbe hm "nrepl.middleware.caught/throwable" with
             | some t =>
               (match parse_exception (ednRead (rustReplace t "#error " "")) with
                | none => none
                | some tr => some (Except.ok (Response.Exception tr.1 "")))
             | none => some (Except.ok (Response.Exception s "")))
          | none =>
            match listProbe hm "status" with
            | some l =>
              some (Except.ok (Response.Status (l.filterMap (fun v =>
                match v with
                | BValue.str s => some s
                | _ => none))))
            | none =>
              match strProbe hm "value" with
              | some v =>
                (match strProbe hm "ns" with
                 | some ns => some (Except.ok (Response.Value v ns 0 ""))
                 | none =>
                   some (Except.error (ReplError.Error
                     ("Missing 'ns' in nREPL value-response: " ++ v))))
              | none =>
                some (Except.error (ReplError.Error
                  "Unsupported nREPL response"))
  | _ => some (Except.error (ReplError.Error "Unexpected nREPL response"))

/-!
Modelled from the spec: the framed dialect's wire framing (§6): a value
is a length-prefixed string (`<len>:<bytes>`, decimal length), an integer
between sentinel markers (`i<digits>e`), a list (`l...e`) or a dictionary
of value pairs (`d...e`).  The codec itself lives in the external
`bencode_rs` crate (assumed correct); lengths are modelled in characters.
-/

mutual
/-- Encode one framed value. -/
def bencL : BValue → List Char
  | BValue.str s => natChars s.length ++ ':' :: s.data
  | BValue.int i => 'i' :: (intChars i ++ ['e'])
  | BValue.list l => 'l' :: (bencList l ++ ['e'])
  | BValue.map m => 'd' :: (bencMap m ++ ['e'])
def bencList : List BValue → List Char
  | [] => []
  | v :: tl => bencL v ++ bencList tl
def bencMap : List (BValue × BValue) → List Char
  | [] => []
  | e :: tl => bencL e.1 ++ (bencL e.2 ++ bencMap tl)
end

/-- Modelled from the spec: parse a decimal digit run (used for string
lengths and integer bodies of the wire framing). -/
def parseNatChars (cs : List Char) : Option (Nat × List Char) :=
  let ds := cs.takeWhile Char.isDigit
  let rest := cs.dropWhile Char.isDigit
  if ds = [] then none
  else some (ds.foldl (fun a c => a * 10 + charVal c) 0, rest)

/-!
Modelled from the spec: the decoder for the wire framing of §6, fuelled
(the fuel is a bound on the recursion depth; every lemma below supplies an
explicit sufficient fuel).
-/

mutual
/-- Decode one framed value. -/
def bdec : Nat → List Char → Option (BValue × List Char)
  | 0, _ => none
  | Nat.succ f, cs =>
    match cs with
    | [] => none
    | c :: rest =>
      if c = 'i' then
        match rest with
        | [] => none
        | c2 :: rest2 =>
          if c2 = '-' then
            match parseNatChars rest2 with
            | some (n, rest3) =>
              (match rest3 with
               | [] => none
               | c3 :: rest4 =>
                 if c3 = 'e' then some (BValue.int (-(n : Int)), rest4)
                 else none)
            | none => none
          else
            match parseNatChars (c2 :: rest2) with
            | some (n, rest3) =>
              (match rest3 with
               | [] => none
               | c3 :: rest4 =>
                 if c3 = 'e' then some (BValue.int (n : Int), rest4)
                 else none)
            | none => none
      else if c = 'l' then
        match bdecList f rest with
        | some (l, rest2) => some (BValue.list l, rest2)
        | none => none
      else if c = 'd' then
        match bdecMap f rest with
        | some (m, rest2) => some (BValue.map m, rest2)
        | none => none
      else
        match parseNatChars (c :: rest) with
        | some (n, rest2) =>
          (match rest2 with
           | [] => none
           | c2 :: rest3 =>
             if c2 = ':' then
               if n ≤ rest3.length then
                 some (BValue.str (String.mk (rest3.take n)), rest3.drop n)
               else none
             else none)
        | none => none
def bdecList : Nat → List Char → Option (List BValue × List Char)
  | 0, _ => none
  | Nat.succ f, cs =>
    match cs with
    | [] => none
    | c :: rest =>
      if c = 'e' then some ([], rest)
      else
        match bdec f (c :: rest) with
        | some (v, rest2) =>
          (match bdecList f rest2 with
           | some (l, rest3) => some (v :: l, rest3)
           | none => none)
        | none => none
def bdecMap : Nat → List Char → Option (List (BValue × BValue) × List Char)
  | 0, _ => none
  | Nat.succ f, cs =>
    match cs with
    | [] => none
    | c :: rest =>
      if c = 'e' then some ([], rest)
      else
        match bdec f (c :: rest) with
        | some (k, rest2) =>
          (match bdec f rest2 with
           | some (v, rest3) =>
             (match bdecMap f rest3 with
              | some (m, rest4) => some ((k, v) :: m, rest4)
              | none => none)
           | none => none)
        | none => none
end

/-- The two backends the detector can select. -/
inductive Backend where
  | line : Backend
  | framed : Backend
deriving DecidableEq, Repr

/-- Modelled from the spec: the Backend Detector (§4.2; its code is not
under src/).  After writing the probe eval, it reads exactly one byte of
the response: `{` (0x7B) selects the Line Backend, `d` (0x64) selects the
Framed Backend, any other byte — or a read failure, modelled as `none` —
is the fatal "no REPL available at this endpoint" condition. -/
def detect_backend (firstByte : Option Nat) : Except String Backend :=
  match firstByte with
  | some b =>
    if b = 0x7B then Except.ok Backend.line
    else if b = 0x64 then Except.ok Backend.framed
    else Except.error "no REPL available at this endpoint"
  | none => Except.error "no REPL available at this endpoint"

/-- Values of the host editor's RPC library (`neovim_lib::Value`) as far as
src/main.rs inspects them: strings, 64-bit integers, maps, and a catch-all
for every other shape. -/
inductive NvimValue where
  | str : String → NvimValue
  | int : Int → NvimValue
  | map : List (NvimValue × NvimValue) → NvimValue
  | other : NvimValue

/-- Rust `i64 as i32` cast: two's-complement wrap into `[-2^31, 2^31)`. -/
def i64_as_i32 (i : Int) : Int := (i + 2 ^ 31) % 2 ^ 32 - 2 ^ 31

/-- `Value::as_str().unwrap_or("")` from src/main.rs. -/
def NvimValue.asStrOr : NvimValue → String
  | NvimValue.str s => s
  | _ => ""

/-- The entry loop of `TryFrom<Vec<neovim_lib::Value>> for bencode::Value`
(src/main.rs): convert the first argument's map into a framed dictionary,
failing on any value that is neither a string nor an integer. -/
def nvimPairsToBc : List (NvimValue × NvimValue) → List (BValue × BValue) →
    Except String (List (BValue × BValue))
  | [], acc => Except.ok acc
  | (k, v) :: tl, acc =>
    match v with
    | NvimValue.str s =>
      nvimPairsToBc tl (bInsert acc (BValue.str k.asStrOr) (BValue.str s))
    | NvimValue.int i =>
      nvimPairsToBc tl (bInsert acc (BValue.str k.asStrOr)
        (BValue.int (i64_as_i32 i)))
    | _ => Except.error "Failed to convert NVIM message to bencode::Value"

/-- src/main.rs `TryFrom<Vec<neovim_lib::Value>> for bencode::Value`.  The
source unwraps `nvim_arg.iter().next()`, so an empty argument vector is a
panic, modelled by `none`. -/
def bencode_try_from (nvim_arg : List NvimValue) :
    Option (Except String BValue) :=
  match nvim_arg with
  | [] => none
  | first :: _ =>
    match first with
    | NvimValue.map vals =>
      some ((nvimPairsToBc vals []).map BValue.map)
    | _ => some (Except.error "Unable to convert NVIM message to bencode::Value")

/-- src/main.rs `insert_nrepl_session`: add the session key to a request
dictionary, failing on a non-dictionary value. -/
def insert_nrepl_session (val : BValue) (session : String) :
    Except String BValue :=
  match val with
  | BValue.map hm =>
    Except.ok (BValue.map (bInsert hm (BValue.str "session")
      (BValue.str session)))
  | _ => Except.error "Invalid bencode, cannot insert session key to nREPL request"

/-- What one iteration of the `run` event loop of src/main.rs does with a
host event: forward a request frame and keep looping, send a frame and
break out of the loop, or propagate an error out of `run`. -/
inductive LoopStep where
  | sent : BValue → LoopStep
  | sentAndBroke : BValue → LoopStep
  | failed : String → LoopStep

/-- The `match event.as_str()` dispatch of src/main.rs `run` (the event
loop body): the event name `nrepl` converts the arguments, inserts the
session key and sends the frame; `"stop" | "exit" | _` — every other name —
sends `{op: close}` and breaks.  `none` models the panic
`bencode_try_from` can raise on an empty argument vector. -/
def run_dispatch (nrepl_session : String) (event : String)
    (nvim_args : List NvimValue) : Option LoopStep :=
  if event = "nrepl" then
    match bencode_try_from nvim_args with
    | none => none
    | some (Except.ok v) =>
      (match insert_nrepl_session v nrepl_session with
       | Except.ok v2 => some (LoopStep.sent v2)
       | Except.error e => some (LoopStep.failed e))
    | some (Except.error e) => some (LoopStep.failed e)
  else
    some (LoopStep.sentAndBroke (BValue.map
      [(BValue.str "op", BValue.str "close")]))

theorem alFind_isSome_iff {α β : Type} [DecidableEq α] (m : List (α × β))
    (k : α) : (alFind m k).isSome ↔ k ∈ alKeys m := by
  induction m with
  | nil => simp [alFind, alKeys]
  | cons e tl ih =>
    by_cases h : e.1 = k
    · simp [alFind, h, alKeys]
    · simp [alFind, h, alKeys, ih]
      intro he
      exact absurd he.symm h

theorem alFind_eq_none_iff {α β : Type} [DecidableEq α] (m : List (α × β))
    (k : α) : alFind m k = none ↔ k ∉ alKeys m := by
  rw [← alFind_isSome_iff]
  cases alFind m k <;> simp

theorem alKeys_alInsert {α β : Type} [DecidableEq α] (m : List (α × β))
    (k : α) (v : β) :
    alKeys (alInsert m k v) =
      if (alFind m k).isSome then alKeys m else alKeys m ++ [k] := by
  unfold alInsert
  by_cases h : (alFind m k).isSome
  · simp only [h, if_true, alKeys, List.map_map]
    refine List.map_congr_left ?_
    intro e _
    by_cases he : e.1 = k
    · simp [he, Function.comp]
    · simp [he, Function.comp]
  · simp [h, alKeys]

theorem mem_alKeys_alInsert {α β : Type} [DecidableEq α] (m : List (α × β))
    (k x : α) (v : β) :
    x ∈ alKeys (alInsert m k v) ↔ x = k ∨ x ∈ alKeys m := by
  rw [alKeys_alInsert]
  by_cases h : (alFind m k).isSome
  · have hk : k ∈ alKeys m := (alFind_isSome_iff m k).mp h
    simp only [h, if_true]
    constructor
    · exact Or.inr
    · rintro (rfl | hx)
      · exact hk
      · exact hx
  · rw [if_neg h]
    simp only [List.mem_append, List.mem_singleton]
    tauto

theorem nodup_alKeys_alInsert {α β : Type} [DecidableEq α] (m : List (α × β))
    (k : α) (v : β) (h : (alKeys m).Nodup) :
    (alKeys (alInsert m k v)).Nodup := by
  rw [alKeys_alInsert]
  by_cases hs : (alFind m k).isSome
  · simpa [hs] using h
  · have hk : k ∉ alKeys m := by
      rw [← alFind_eq_none_iff]
      cases hf : alFind m k
      · rfl
      · exact absurd (by simp [hf]) hs
    simp [hs, List.nodup_append, h, hk]

theorem alFind_append {α β : Type} [DecidableEq α] (a b : List (α × β))
    (k : α) :
    alFind (a ++ b) k = match alFind a k with
      | some v => some v
      | none => alFind b k := by
  induction a with
  | nil => simp [alFind]
  | cons e tl ih =>
    by_cases h : e.1 = k
    · simp [alFind, h]
    · simp [alFind, h, ih]

theorem alFind_map_replace {α β : Type} [DecidableEq α] (m : List (α × β))
    (k : α) (v : β) :
    alFind (m.map (fun e => if e.1 = k then (k, v) else e)) k =
      if (alFind m k).isSome then some v else none := by
  induction m with
  | nil => simp [alFind]
  | cons e tl ih =>
    by_cases h : e.1 = k
    · simp [alFind, h]
    · simp only [List.map_cons, if_neg h]
      rw [show alFind (e :: tl.map (fun e => if e.1 = k then (k, v) else e)) k
            = alFind (tl.map (fun e => if e.1 = k then (k, v) else e)) k by
          simp [alFind, h]]
      rw [ih]
      simp [alFind, h]

theorem alFind_alInsert_self {α β : Type} [DecidableEq α] (m : List (α × β))
    (k : α) (v : β) : alFind (alInsert m k v) k = some v := by
  unfold alInsert
  by_cases h : (alFind m k).isSome
  · simp [h, alFind_map_replace]
  · rw [if_neg h, alFind_append]
    have : alFind m k = none := by
      cases hf : alFind m k
      · rfl
      · exact absurd (by simp [hf]) h
    simp [this, alFind]

theorem alFind_map_replace_ne {α β : Type} [DecidableEq α] (m : List (α × β))
    (k k' : α) (v : β) (h : k' ≠ k) :
    alFind (m.map (fun e => if e.1 = k then (k, v) else e)) k' =
      alFind m k' := by
  induction m with
  | nil => simp [alFind]
  | cons e tl ih =>
    by_cases he : e.1 = k
    · simp only [List.map_cons, if_pos he, alFind]
      rw [if_neg (fun hk : k = k' => h hk.symm),
        if_neg (fun hk : e.1 = k' => h (he ▸ hk).symm)]
      exact ih
    · simp only [List.map_cons, if_neg he, alFind]
      by_cases he' : e.1 = k'
      · rw [if_pos he', if_pos he']
      · rw [if_neg he', if_neg he']
        exact ih

theorem alFind_alInsert_ne {α β : Type} [DecidableEq α] (m : List (α × β))
    (k k' : α) (v : β) (h : k' ≠ k) :
    alFind (alInsert m k v) k' = alFind m k' := by
  unfold alInsert
  by_cases hs : (alFind m k).isSome
  · rw [if_pos hs]
    exact alFind_map_replace_ne m k k' v h
  · rw [if_neg hs, alFind_append]
    cases hf : alFind m k' with
    | some v' => simp
    | none =>
      simp only [alFind]
      rw [if_neg (fun hk : k = k' => h hk.symm)]

theorem charVal_digitChar (d : Nat) (h : d < 10) :
    charVal (Nat.digitChar d) = d := by
  interval_cases d <;> decide

theorem digitChar_isDigit (d : Nat) (h : d < 10) :
    (Nat.digitChar d).isDigit = true := by
  interval_cases d <;> decide

theorem natCharsAux_all_digit (f : Nat) :
    ∀ n c, c ∈ natCharsAux f n → c.isDigit = true := by
  induction f with
  | zero => intro n c hc; simp [natCharsAux] at hc
  | succ f ih =>
    intro n c hc
    cases n with
    | zero => simp [natCharsAux] at hc
    | succ m =>
      simp only [natCharsAux, List.mem_append, List.mem_singleton] at hc
      rcases hc with hc | hc
      · exact ih _ c hc
      · rw [hc]
        exact digitChar_isDigit _ (Nat.mod_lt _ (by omega))

theorem natChars_all_digit (n : Nat) :
    ∀ c ∈ natChars n, c.isDigit = true := by
  intro c hc
  unfold natChars at hc
  by_cases h : n = 0
  · rw [if_pos h] at hc
    simp at hc
    rw [hc]
    decide
  · rw [if_neg h] at hc
    exact natCharsAux_all_digit n n c hc

theorem natChars_ne_nil (n : Nat) : natChars n ≠ [] := by
  unfold natChars
  by_cases h : n = 0
  · simp [h]
  · rw [if_neg h]
    cases n with
    | zero => exact absurd rfl h
    | succ m =>
      simp [natCharsAux]

theorem foldl_natCharsAux (f : Nat) :
    ∀ n a, n ≤ f →
      (natCharsAux f n).foldl (fun x c => x * 10 + charVal c) a =
        a * 10 ^ (natCharsAux f n).length + n := by
  induction f with
  | zero =>
    intro n a hn
    interval_cases n
    simp [natCharsAux]
  | succ f ih =>
    intro n a hn
    cases n with
    | zero => simp [natCharsAux]
    | succ m =>
      simp only [natCharsAux, List.foldl_append, List.foldl_cons,
        List.foldl_nil, List.length_append, List.length_cons,
        List.length_nil]
      have hdiv : (m + 1) / 10 ≤ f := by
        have h1 : (m + 1) / 10 < m + 1 := Nat.div_lt_self (by omega) (by omega)
        omega
      rw [ih _ a hdiv, charVal_digitChar _ (Nat.mod_lt _ (by omega))]
      have hmod := Nat.div_add_mod (m + 1) 10
      ring_nf
      omega

theorem foldl_natChars (n : Nat) :
    (natChars n).foldl (fun x c => x * 10 + charVal c) 0 = n := by
  unfold natChars
  by_cases h : n = 0
  · simp [h, charVal]
  · rw [if_neg h]
    rw [foldl_natCharsAux n n 0 le_rfl]
    simp

theorem takeWhile_dropWhile_append (p : Char → Bool) (l r : List Char)
    (hl : ∀ c ∈ l, p c = true)
    (hr : ∀ c, r.head? = some c → p c = false) :
    (l ++ r).takeWhile p = l ∧ (l ++ r).dropWhile p = r := by
  induction l with
  | nil =>
    cases r with
    | nil => simp
    | cons c r' =>
      have := hr c rfl
      simp [List.takeWhile, List.dropWhile, this]
  | cons c l' ih =>
    have hc := hl c (List.mem_cons_self _ _)
    have ih' := ih (fun c' hc' => hl c' (List.mem_cons_of_mem _ hc'))
    simp [List.takeWhile, List.dropWhile, hc, ih'.1, ih'.2]

theorem parseNatChars_natChars (n : Nat) (rest : List Char)
    (hr : ∀ c, rest.head? = some c → c.isDigit = false) :
    parseNatChars (natChars n ++ rest) = some (n, rest) := by
  have h := takeWhile_dropWhile_append Char.isDigit (natChars n) rest
    (natChars_all_digit n) hr
  unfold parseNatChars
  rw [h.1, h.2, if_neg (natChars_ne_nil n), foldl_natChars]

/-- A framed value is flat when it is a string or an integer; every
dictionary the sender encodes has only flat keys and values, because
`Param` has only those two shapes. -/
def BFlat (v : BValue) : Prop := (∃ s, v = BValue.str s) ∨ (∃ i, v = BValue.int i)

theorem bFlat_paramToBc (p : Param) : BFlat (paramToBc p) := by
  cases p with
  | str s => exact Or.inl ⟨s, rfl⟩
  | int i => exact Or.inr ⟨i, rfl⟩

theorem isDigit_ne (c d : Char) (h : c.isDigit = true) (hd : d.isDigit = false) :
    c ≠ d := by
  intro hc
  rw [hc] at h
  rw [h] at hd
  exact absurd hd (by simp)

theorem natChars_head_digit (n : Nat) :
    ∃ c t, natChars n = c :: t ∧ c.isDigit = true := by
  cases h : natChars n with
  | nil => exact absurd h (natChars_ne_nil n)
  | cons c t =>
    refine ⟨c, t, rfl, ?_⟩
    exact natChars_all_digit n c (by rw [h]; exact List.mem_cons_self _ _)

theorem bdec_str (f : Nat) (s : String) (rest : List Char) :
    bdec (f + 1) (bencL (BValue.str s) ++ rest) =
      some (BValue.str s, rest) := by
  obtain ⟨c, t, hct, hcd⟩ := natChars_head_digit s.length
  have hparse : parseNatChars (natChars s.length ++ (':' :: (s.data ++ rest)))
      = some (s.length, ':' :: (s.data ++ rest)) := by
    refine parseNatChars_natChars _ _ ?_
    intro c' hc'
    simp only [List.head?_cons, Option.some.injEq] at hc'
    subst hc'
    decide
  have hlist : bencL (BValue.str s) ++ rest =
      c :: (t ++ (':' :: (s.data ++ rest))) := by
    show (natChars s.length ++ ':' :: s.data) ++ rest = _
    rw [hct]
    simp
  rw [hlist]
  show bdec (Nat.succ f) _ = _
  simp only [bdec]
  rw [if_neg (isDigit_ne c 'i' hcd (by decide)),
    if_neg (isDigit_ne c 'l' hcd (by decide)),
    if_neg (isDigit_ne c 'd' hcd (by decide))]
  rw [show c :: (t ++ (':' :: (s.data ++ rest)))
        = natChars s.length ++ (':' :: (s.data ++ rest)) by rw [hct]; rfl]
  rw [hparse]
  have hlen : s.length = s.data.length := rfl
  simp only [if_pos rfl, hlen]
  rw [if_pos (by simp : s.data.length ≤ (s.data ++ rest).length)]
  rw [List.take_left, List.drop_left]
  simp

theorem bdec_int (f : Nat) (i : Int) (rest : List Char) :
    bdec (f + 1) (bencL (BValue.int i) ++ rest) =
      some (BValue.int i, rest) := by
  have hlist : bencL (BValue.int i) ++ rest =
      'i' :: (intChars i ++ ('e' :: rest)) := by
    show ('i' :: (intChars i ++ ['e'])) ++ rest = _
    simp
  rw [hlist]
  show bdec (Nat.succ f) _ = _
  simp only [bdec]
  rw [if_pos trivial]
  by_cases hneg : i < 0
  · have hic : intChars i = '-' :: natChars i.natAbs := by
      unfold intChars
      rw [if_pos hneg]
    have hparse : parseNatChars (natChars i.natAbs ++ ('e' :: rest))
        = some (i.natAbs, 'e' :: rest) := by
      refine parseNatChars_natChars _ _ ?_
      intro c' hc'
      simp only [List.head?_cons, Option.some.injEq] at hc'
      subst hc'
      decide
    have habs : -((i.natAbs : Nat) : Int) = i := by
      rw [Int.ofNat_natAbs_of_nonpos (le_of_lt hneg)]
      ring
    rw [hic]
    simp only [List.cons_append, hparse]
    simp
    rw [abs_of_neg hneg]
    ring
  · obtain ⟨c, t, hct, hcd⟩ := natChars_head_digit i.toNat
    have hic : intChars i = natChars i.toNat := by
      unfold intChars
      rw [if_neg hneg]
    have hparse : parseNatChars (natChars i.toNat ++ ('e' :: rest))
        = some (i.toNat, 'e' :: rest) := by
      refine parseNatChars_natChars _ _ ?_
      intro c' hc'
      simp only [List.head?_cons, Option.some.injEq] at hc'
      subst hc'
      decide
    rw [hic, hct]
    simp only [List.cons_append]
    rw [if_neg (isDigit_ne c '-' hcd (by decide))]
    rw [show c :: (t ++ ('e' :: rest)) = natChars i.toNat ++ ('e' :: rest) by
      rw [hct]; rfl]
    rw [hparse]
    simp [Int.toNat_of_nonneg (Int.not_lt.mp hneg)]

theorem bdec_flat (f : Nat) (v : BValue) (hv : BFlat v) (rest : List Char) :
    bdec (f + 1) (bencL v ++ rest) = some (v, rest) := by
  rcases hv with ⟨s, rfl⟩ | ⟨i, rfl⟩
  · exact bdec_str f s rest
  · exact bdec_int f i rest

theorem bencL_flat_head (v : BValue) (hv : BFlat v) :
    ∃ c t, bencL v = c :: t ∧ c ≠ 'e' := by
  rcases hv with ⟨s, rfl⟩ | ⟨i, rfl⟩
  · obtain ⟨c, t, hct, hcd⟩ := natChars_head_digit s.length
    refine ⟨c, t ++ ':' :: s.data, ?_, isDigit_ne c 'e' hcd (by decide)⟩
    show natChars s.length ++ ':' :: s.data = _
    rw [hct]
    rfl
  · exact ⟨'i', intChars i ++ ['e'], rfl, by decide⟩

theorem bdecMap_e (g : Nat) (rest : List Char) :
    bdecMap (Nat.succ g) ('e' :: rest) = some ([], rest) := by
  simp only [bdecMap]
  simp

theorem bdecMap_cons_ne (g : Nat) (c : Char) (cs : List Char) (h : c ≠ 'e') :
    bdecMap (Nat.succ g) (c :: cs) =
      match bdec g (c :: cs) with
      | some (k, rest2) =>
        (match bdec g rest2 with
         | some (v, rest3) =>
           (match bdecMap g rest3 with
            | some (m, rest4) => some ((k, v) :: m, rest4)
            | none => none)
         | none => none)
      | none => none := by
  simp only [bdecMap]
  rw [if_neg h]

theorem bdecMap_bencMap (entries : List (BValue × BValue))
    (hflat : ∀ e ∈ entries, BFlat e.1 ∧ BFlat e.2) :
    ∀ (f : Nat) (rest : List Char),
      bdecMap (f + entries.length + 1) (bencMap entries ++ ('e' :: rest)) =
        some (entries, rest) := by
  induction entries with
  | nil =>
    intro f rest
    show bdecMap (Nat.succ (f + 0)) ('e' :: rest) = some ([], rest)
    exact bdecMap_e _ rest
  | cons e tl ih =>
    intro f rest
    obtain ⟨hk, hv⟩ := hflat e (List.mem_cons_self _ _)
    have htl := ih (fun e' he' => hflat e' (List.mem_cons_of_mem _ he'))
    obtain ⟨c, t, hct, hce⟩ := bencL_flat_head e.1 hk
    have hfuel : f + (e :: tl).length + 1 = Nat.succ (f + tl.length + 1) := by
      simp [List.length_cons]
      omega
    have hlist : bencMap (e :: tl) ++ ('e' :: rest) =
        c :: (t ++ (bencL e.2 ++ (bencMap tl ++ ('e' :: rest)))) := by
      show (bencL e.1 ++ (bencL e.2 ++ bencMap tl)) ++ ('e' :: rest) = _
      rw [hct]
      simp
    rw [hfuel, hlist, bdecMap_cons_ne _ c _ hce]
    rw [show c :: (t ++ (bencL e.2 ++ (bencMap tl ++ ('e' :: rest))))
          = bencL e.1 ++ (bencL e.2 ++ (bencMap tl ++ ('e' :: rest))) by
        rw [hct]
        rfl]
    simp [bdec_flat (f + tl.length) e.1 hk,
      bdec_flat (f + tl.length) e.2 hv, htl f rest]

theorem bdec_bencL_flatMap (f : Nat) (m : List (BValue × BValue))
    (hm : ∀ e ∈ m, BFlat e.1 ∧ BFlat e.2) :
    bdec (f + m.length + 2) (bencL (BValue.map m)) = some (BValue.map m, []) := by
  show bdec (Nat.succ (f + m.length + 1)) ('d' :: (bencMap m ++ ['e'])) = _
  have hbody := bdecMap_bencMap m hm f []
  simp only [bdec]
  rw [if_pos trivial, hbody]
  simp

/-- Every entry of a dictionary built by `build_bc_value` is flat. -/
theorem build_bc_value_flat (hm : PMap) :
    ∀ e ∈ hm.map (fun e => (paramToBc e.1, paramToBc e.2)),
      BFlat e.1 ∧ BFlat e.2 := by
  intro e he
  simp only [List.mem_map] at he
  obtain ⟨p, _, rfl⟩ := he
  exact ⟨bFlat_paramToBc p.1, bFlat_paramToBc p.2⟩

/-- Claim C4: the backend detector reads exactly one byte of the probe
response: `{` (0x7B) selects the Line Backend, `d` (0x64) selects the
Framed Backend, and any other byte or a read failure is the fatal
"no REPL available at this endpoint" condition. -/
theorem detect_backend_by_first_byte :
    detect_backend (some 0x7B) = Except.ok Backend.line ∧
    detect_backend (some 0x64) = Except.ok Backend.framed ∧
    detect_backend none = Except.error "no REPL available at this endpoint" ∧
    (∀ b : Nat, b ≠ 0x7B → b ≠ 0x64 →
      detect_backend (some b) =
        Except.error "no REPL available at this endpoint") := by
  refine ⟨rfl, rfl, rfl, ?_⟩
  intro b h1 h2
  show (if b = 0x7B then Except.ok Backend.line
      else if b = 0x64 then Except.ok Backend.framed
      else Except.error "no REPL available at this endpoint") =
    Except.error "no REPL available at this endpoint"
  rw [if_neg h1, if_neg h2]

/-- Witness for C4 at the spec's probe bytes 0x00 and 0xFF. -/
theorem detect_backend_by_first_byte_witness :
    detect_backend (some 0x00) =
      Except.error "no REPL available at this endpoint" ∧
    detect_backend (some 0xFF) =
      Except.error "no REPL available at this endpoint" :=
  ⟨detect_backend_by_first_byte.2.2.2 0x00 (by decide) (by decide),
   detect_backend_by_first_byte.2.2.2 0xFF (by decide) (by decide)⟩

/-- Claim C8 counterexample: the exception-trace extraction of src/repl.rs
is not total — at the concrete input `{}` (a parsed map with no `:via`
key) the `.unwrap()` on the `:via` lookup panics, so no (trace, message)
result is returned. -/
theorem parse_exception_panic_counterexample :
    parse_exception (some (Except.ok (Edn.map []))) = none ∧
    (¬ ∃ p, parse_exception (some (Except.ok (Edn.map []))) = some p) ∧
    parse_exception none = none := by
  refine ⟨rfl, ?_, rfl⟩
  rintro ⟨p, hp⟩
  exact Option.noConfusion hp

/-- Claim C8 (amended): the extraction returns a (trace, message) result
whenever the parser read yields a parse error, a non-map value, or a map
with both `:via` and `:trace` keys; it aborts (unwrap panic) when the read
yields no value (empty input) or the map lacks `:via` or `:trace`. -/
theorem parse_exception_total_on_wellformed
    (readResult : Option (Except String Edn)) :
    (∀ e, readResult = some (Except.error e) →
      (parse_exception readResult).isSome = true) ∧
    (∀ m, readResult = some (Except.ok (Edn.map m)) →
      (ednFind m (Edn.keyword "via")).isSome →
      (ednFind m (Edn.keyword "trace")).isSome →
      (parse_exception readResult).isSome = true) ∧
    (readResult = none → parse_exception readResult = none) ∧
    (∀ m, readResult = some (Except.ok (Edn.map m)) →
      ednFind m (Edn.keyword "via") = none →
      parse_exception readResult = none) ∧
    (∀ m, readResult = some (Except.ok (Edn.map m)) →
      ednFind m (Edn.keyword "trace") = none →
      parse_exception readResult = none) ∧
    (∀ v, readResult = some (Except.ok v) → (∀ m, v ≠ Edn.map m) →
      (parse_exception readResult).isSome = true) := by
  refine ⟨?_, ?_, ?_, ?_, ?_, ?_⟩
  · rintro e rfl
    rfl
  · rintro m rfl hvia htrace
    obtain ⟨viaVal, hv⟩ := Option.isSome_iff_exists.mp hvia
    obtain ⟨traceVal, ht⟩ := Option.isSome_iff_exists.mp htrace
    simp only [parse_exception, hv, ht, Option.isSome_some]
  · rintro rfl
    rfl
  · rintro m rfl hvia
    simp only [parse_exception, hvia]
  · rintro m rfl htrace
    cases hvia : ednFind m (Edn.keyword "via") with
    | none => simp only [parse_exception, hvia]
    | some viaVal => simp only [parse_exception, hvia, htrace]
  · rintro v rfl hnm
    cases v with
    | map m => exact absurd rfl (hnm m)
    | string a => rfl
    | symbol a => rfl
    | keyword a => rfl
    | integer a => rfl
    | boolean a => rfl
    | nil => rfl
    | vector a => rfl

/-- Witness for C8's amended theorem: a map carrying both keys yields a
result, and so does a non-map parse value, at concrete inputs. -/
theorem parse_exception_total_on_wellformed_witness :
    (parse_exception (some (Except.ok (Edn.map
      [(Edn.keyword "via", Edn.vector []),
       (Edn.keyword "trace", Edn.vector [])])))).isSome = true ∧
    (parse_exception (some (Except.ok (Edn.string "kaboom")))).isSome = true :=
  ⟨(parse_exception_total_on_wellformed _).2.1 _ rfl (by decide) (by decide),
   (parse_exception_total_on_wellformed _).2.2.2.2.2 _ rfl
     (fun m h => Edn.noConfusion h)⟩

/-- Claim C6 counterexample: a parsed map missing the `tag` key does not
make receive() return a failed Result — the source unwraps the `tag`
lookup and panics: at the concrete frame `{}` the embedding yields `none`
(a panic), never `some (Except.error _)`. -/
theorem prepl_receive_missing_tag_counterexample :
    PreplReceiver.receive (fun _ => none) (some (Except.ok (Edn.map []))) =
      none ∧
    (¬ ∃ e, PreplReceiver.receive (fun _ => none)
        (some (Except.ok (Edn.map []))) = some (Except.error e)) := by
  refine ⟨rfl, ?_⟩
  rintro ⟨e, he⟩
  exact Option.noConfusion he

/-- Claim C6 (amended): for the Line Backend receiver, malformed structured
text (a parse error) and an empty line (no parse value) return a fatal
decode error Result, not retried; but a parsed map missing the `tag` key
aborts (unwrap panic) rather than returning a failed Result. -/
theorem prepl_receive_parse_failures
    (ednRead : String → Option (Except String Edn)) :
    (∀ e, PreplReceiver.receive ednRead (some (Except.error e)) =
      some (Except.error (ReplError.Error ("EDN parser Error: " ++ e)))) ∧
    (PreplReceiver.receive ednRead none =
      some (Except.error (ReplError.Error
        "EDN parser Error: trying to parse empty string"))) ∧
    (∀ m, ednFind m (Edn.keyword "tag") = none →
      PreplReceiver.receive ednRead (some (Except.ok (Edn.map m))) = none) := by
  refine ⟨fun e => rfl, rfl, ?_⟩
  intro m hm
  simp only [PreplReceiver.receive, hm]

/-- Witness for C6's amended theorem at a concrete map without `tag`. -/
theorem prepl_receive_parse_failures_witness :
    PreplReceiver.receive (fun _ => none)
      (some (Except.ok (Edn.map [(Edn.keyword "val", Edn.string "1")]))) =
      none :=
  (prepl_receive_parse_failures (fun _ => none)).2.2 _ rfl

/-- Claim C7: on the document `{:via [{:message "boom"}]
:trace [[sym1 "file.ext" 42]]}` the Line Backend's exception decoder
produces "boom" on its own line (line 0) and, later, a line that is
exactly "sym1 file.ext 42" (line 3). -/
theorem prepl_parse_exception_boom_trace :
    PreplReceiver.parse_exception (some (Except.ok (Edn.map
      [(Edn.keyword "via",
        Edn.vector [Edn.map [(Edn.keyword "message", Edn.string "boom")]]),
       (Edn.keyword "trace",
        Edn.vector [Edn.vector
          [Edn.symbol "sym1", Edn.string "file.ext", Edn.integer 42]])])))
      = some "boom\n\n-- Trace --\nsym1 file.ext 42\n" ∧
    (linesOf "boom\n\n-- Trace --\nsym1 file.ext 42\n")[0]? = some "boom" ∧
    (linesOf "boom\n\n-- Trace --\nsym1 file.ext 42\n")[3]? =
      some "sym1 file.ext 42" := by
  refine ⟨?_, ?_, ?_⟩ <;> rfl

/-- Claim C9: the Line Backend sender writes, for Eval, the payload's
"code" entry followed by a newline (nothing when the entry is absent); for
Exit, the literal quit token; and nothing for every other variant.  The
embedded send is total, modelling the `Ok(())` the source returns whenever
the socket write succeeds. -/
theorem prepl_send_contract (s : PreplSender) (p : PMap) :
    (∀ c, alFind p (Param.str "code") = some (Param.str c) →
      (s.send (Request.Eval p)).2 = c ++ "\n") ∧
    (alFind p (Param.str "code") = none → (s.send (Request.Eval p)).2 = "") ∧
    ((s.send Request.Exit).2 = ":repl/quit\n") ∧
    ((s.send Request.NewSession).2 = "") ∧
    ((s.send Request.DisableNsMaps).2 = "") ∧
    ((s.send (Request.Interrupt p)).2 = "") := by
  refine ⟨?_, ?_, rfl, rfl, rfl, rfl⟩
  · intro c hc
    have hne : c ++ "\n" ≠ "" := by
      intro h
      have hlen := congrArg String.length h
      rw [String.length_append] at hlen
      simp at hlen
      exact absurd hlen.2 (by decide)
    simp only [PreplSender.send, hc]
    rw [if_pos hne]
  · intro hc
    simp only [PreplSender.send, hc]
    rw [if_neg (by simp : ¬(("" : String) ≠ ""))]

/-- Witness for C9 at a concrete payload with and without a "code" entry. -/
theorem prepl_send_contract_witness :
    (PreplSender.send ⟨"prepl_default_session", 0⟩
      (Request.Eval [(Param.str "code", Param.str "(+ 1 1)")])).2 =
      "(+ 1 1)\n" ∧
    (PreplSender.send ⟨"prepl_default_session", 0⟩ (Request.Eval [])).2 = "" :=
  ⟨(prepl_send_contract _ _).1 "(+ 1 1)" (by decide),
   (prepl_send_contract _ _).2.1 (by decide)⟩

/-- Claim C10 counterexample: the host command name `eval` does not produce
an eval request — in the `run` event loop of src/main.rs it falls into the
`"stop" | "exit" | _` arm, which sends `{op: close}` (the exit frame) and
breaks, as shown here on a concrete argument map. -/
theorem run_dispatch_eval_counterexample :
    run_dispatch "sess" "eval"
        [NvimValue.map [(NvimValue.str "op", NvimValue.str "eval")]] =
      some (LoopStep.sentAndBroke (BValue.map
        [(BValue.str "op", BValue.str "close")])) ∧
    run_dispatch "sess" "interrupt"
        [NvimValue.map [(NvimValue.str "op", NvimValue.str "interrupt")]] =
      some (LoopStep.sentAndBroke (BValue.map
        [(BValue.str "op", BValue.str "close")])) := ⟨rfl, rfl⟩

/-- Claim C10 (amended): the run loop's dispatch recognizes exactly one
event name, `nrepl` (convert the argument map, insert the session, send,
keep looping); every other event name — `exit`, `stop`, and also `eval`,
`interrupt` or anything else — sends the `{op: close}` frame and breaks,
i.e. is treated as exit. -/
theorem run_dispatch_fallback_exit (sess event : String)
    (args : List NvimValue) :
    (event ≠ "nrepl" →
      run_dispatch sess event args =
        some (LoopStep.sentAndBroke (BValue.map
          [(BValue.str "op", BValue.str "close")]))) ∧
    (∀ pairs tlArgs hm, args = NvimValue.map pairs :: tlArgs →
      nvimPairsToBc pairs [] = Except.ok hm →
      event = "nrepl" →
      run_dispatch sess event args =
        some (LoopStep.sent (BValue.map (bInsert hm (BValue.str "session")
          (BValue.str sess))))) := by
  constructor
  · intro h
    unfold run_dispatch
    rw [if_neg h]
  · rintro pairs tlArgs hm rfl hconv rfl
    unfold run_dispatch
    rw [if_pos rfl]
    simp only [bencode_try_from, hconv, Except.map, insert_nrepl_session]

/-- Witness for C10's amended theorem: `exit` closes, and `nrepl` forwards
a concrete converted argument map with the session inserted. -/
theorem run_dispatch_fallback_exit_witness :
    run_dispatch "sess" "exit" [] =
      some (LoopStep.sentAndBroke (BValue.map
        [(BValue.str "op", BValue.str "close")])) ∧
    run_dispatch "sess" "nrepl"
        [NvimValue.map [(NvimValue.str "op", NvimValue.str "eval")]] =
      some (LoopStep.sent (BValue.map (bInsert
        [(BValue.str "op", BValue.str "eval")] (BValue.str "session")
        (BValue.str "sess")))) :=
  ⟨(run_dispatch_fallback_exit "sess" "exit" []).1 (by decide),
   (run_dispatch_fallback_exit "sess" "nrepl" _).2
     [(NvimValue.str "op", NvimValue.str "eval")] [] _ rfl rfl rfl⟩

/-- Claim C2 counterexample: after the handshake the counter is 2; an eval
goes out carrying id "2" and bumps the counter to 3; the interrupt sent
next carries interrupt-id "3" — the counter at interrupt-send time, not
the value at the time the eval was sent — and a caller-supplied
interrupt-id "2" is overwritten with "3" by the sender. -/
theorem nrepl_interrupt_id_counterexample :
    alFind ((NreplSender.mk "S" 2).buildParams
        (Request.Eval [(Param.str "code", Param.str "(+ 1 1)")]))
      (Param.str "id") = some (Param.str "2") ∧
    ((NreplSender.mk "S" 2).send
        (Request.Eval [(Param.str "code", Param.str "(+ 1 1)")])).1 =
      NreplSender.mk "S" 3 ∧
    alFind ((NreplSender.mk "S" 3).buildParams
        (Request.Interrupt [(Param.str "interrupt-id", Param.str "2")]))
      (Param.str "interrupt-id") = some (Param.str "3") ∧
    Param.str "3" ≠ Param.str "2" := by
  refine ⟨by decide, by decide, by decide, by decide⟩

/-- Claim C2 (amended): the Framed Backend sender stamps every Interrupt
request itself: the encoded dictionary's `interrupt-id` — like its `id` —
equals the sender's request counter at the time the interrupt is sent,
overwriting any caller-supplied `interrupt-id`; it is not the id the
original eval carried, since the eval's own send already incremented the
counter. -/
theorem nrepl_interrupt_id_is_current_counter (sess : String) (cnt : Nat)
    (p : PMap) :
    alFind ((NreplSender.mk sess cnt).buildParams (Request.Interrupt p))
        (Param.str "interrupt-id") =
      some (Param.str (String.mk (natChars cnt))) ∧
    alFind ((NreplSender.mk sess cnt).buildParams (Request.Interrupt p))
        (Param.str "id") =
      some (Param.str (String.mk (natChars cnt))) := by
  unfold NreplSender.buildParams
  constructor
  · rw [alFind_alInsert_ne _ _ _ _ (by decide : Param.str "interrupt-id" ≠ Param.str "id")]
    by_cases h : sess ≠ ""
    · rw [if_pos h,
        alFind_alInsert_ne _ _ _ _
          (by decide : Param.str "interrupt-id" ≠ Param.str "session"),
        alFind_alInsert_self]
    · rw [if_neg h, alFind_alInsert_self]
  · rw [alFind_alInsert_self]

/-- Claim C1 counterexample: `new_sender_receiver` can return a pair whose
session ids are empty — nothing checks the server-supplied id for
emptiness.  With the server replying new-session "", then a value and a
done-status, the handshake succeeds and both recorded ids are "". -/
theorem nrepl_handshake_empty_session_counterexample :
    new_sender_receiver (Except.ok (Response.NewSession ""))
        (Except.ok (Response.Value "" "" 0 ""))
        (Except.ok (Response.Status ["done"])) =
      Except.ok (NreplSender.mk "" 2, NreplReceiver.mk "" 0) ∧
    (NreplSender.mk "" 2).session_id = "" := by
  refine ⟨rfl, rfl⟩

/-- Claim C1 (amended): whenever `new_sender_receiver` returns a pair, the
sender's and receiver's recorded session ids are identical and equal to the
id the server supplied in its new-session response; they are non-empty
exactly when that server-supplied id is (the code never checks, see the
counterexample). -/
theorem nrepl_handshake_session_ids_agree (r1 r2 r3 : Except ReplError Response)
    (snd : NreplSender) (rcv : NreplReceiver)
    (h : new_sender_receiver r1 r2 r3 = Except.ok (snd, rcv)) :
    snd.session_id = rcv.session_id ∧
    r1 = Except.ok (Response.NewSession snd.session_id) := by
  unfold new_sender_receiver at h
  cases r1 with
  | error e => exact absurd h (by simp)
  | ok resp1 =>
    cases resp1 with
    | NewSession sid =>
      cases r2 with
      | error e2 => exact absurd h (by simp)
      | ok resp2 =>
        cases resp2 with
        | Value v n ms fo =>
          cases r3 with
          | error e3 => exact absurd h (by simp)
          | ok resp3 =>
            cases resp3 with
            | Status vec =>
              by_cases hd : vec.contains "done"
              · simp only [NreplSender.send, if_pos hd, Except.ok.injEq,
                  Prod.mk.injEq] at h
                obtain ⟨h1, h2⟩ := h
                subst h1
                subst h2
                exact ⟨rfl, rfl⟩
              · have hd' : ("done" : String) ∉ vec := by simpa using hd
                simp [if_neg hd'] at h
            | Value _ _ _ _ => exact absurd h (by simp)
            | Err _ => exact absurd h (by simp)
            | Out _ => exact absurd h (by simp)
            | Exception _ _ => exact absurd h (by simp)
            | NewSession _ => exact absurd h (by simp)
            | Eof => exact absurd h (by simp)
            | Other _ => exact absurd h (by simp)
        | Err _ => exact absurd h (by simp)
        | Out _ => exact absurd h (by simp)
        | Exception _ _ => exact absurd h (by simp)
        | Status _ => exact absurd h (by simp)
        | NewSession _ => exact absurd h (by simp)
        | Eof => exact absurd h (by simp)
        | Other _ => exact absurd h (by simp)
    | Value _ _ _ _ => exact absurd h (by simp)
    | Err _ => exact absurd h (by simp)
    | Out _ => exact absurd h (by simp)
    | Exception _ _ => exact absurd h (by simp)
    | Status _ => exact absurd h (by simp)
    | Eof => exact absurd h (by simp)
    | Other _ => exact absurd h (by simp)

/-- Witness for C1's amended theorem on a successful concrete handshake. -/
theorem nrepl_handshake_session_ids_agree_witness :
    (NreplSender.mk "sess-1" 2).session_id =
      (NreplReceiver.mk "sess-1" 0).session_id ∧
    (Except.ok (Response.NewSession "sess-1") : Except ReplError Response) =
      Except.ok (Response.NewSession (NreplSender.mk "sess-1" 2).session_id) :=
  nrepl_handshake_session_ids_agree
    (Except.ok (Response.NewSession "sess-1"))
    (Except.ok (Response.Value "2" "user" 0 ""))
    (Except.ok (Response.Status ["done"]))
    (NreplSender.mk "sess-1" 2) (NreplReceiver.mk "sess-1" 0) rfl

/-- Claim C3: the Framed Backend receiver classifies a decoded frame by
probing keys in the fixed priority order new-session, err, out, ex (with
optional throwable rendering), status, value: a frame whose earlier probe
matches gets that classification regardless of any later keys, and a frame
whose only matching key is `value` without a companion `ns` key yields a
protocol error, not a Response.  (A probe matches when the key holds a
string — a list for `status` — exactly as the source's `if let` patterns.) -/
theorem nrepl_response_classification_priority
    (ednRead : String → Option (Except String Edn))
    (hm : List (BValue × BValue)) :
    (∀ s, strProbe hm "new-session" = some s →
      Response.tryFrom ednRead (BValue.map hm) =
        some (Except.ok (Response.NewSession s))) ∧
    (∀ s, strProbe hm "new-session" = none →
      strProbe hm "err" = some s →
      Response.tryFrom ednRead (BValue.map hm) =
        some (Except.ok (Response.Err s))) ∧
    (∀ s, strProbe hm "new-session" = none →
      strProbe hm "err" = none →
      strProbe hm "out" = some s →
      Response.tryFrom ednRead (BValue.map hm) =
        some (Except.ok (Response.Out s))) ∧
    (∀ s, strProbe hm "new-session" = none →
      strProbe hm "err" = none →
      strProbe hm "out" = none →
      strProbe hm "ex" = some s →
      strProbe hm "nrepl.middleware.caught/throwable" = none →
      Response.tryFrom ednRead (BValue.map hm) =
        some (Except.ok (Response.Exception s ""))) ∧
    (∀ s t, strProbe hm "new-session" = none →
      strProbe hm "err" = none →
      strProbe hm "out" = none →
      strProbe hm "ex" = some s →
      strProbe hm "nrepl.middleware.caught/throwable" = some t →
      Response.tryFrom ednRead (BValue.map hm) =
        Option.map (fun pr => Except.ok (Response.Exception pr.1 ""))
          (parse_exception (ednRead (rustReplace t "#error " "")))) ∧
    (∀ l, strProbe hm "new-session" = none →
      strProbe hm "err" = none →
      strProbe hm "out" = none →
      strProbe hm "ex" = none →
      listProbe hm "status" = some l →
      Response.tryFrom ednRead (BValue.map hm) =
        some (Except.ok (Response.Status (l.filterMap (fun v =>
          match v with
          | BValue.str s => some s
          | _ => none))))) ∧
    (∀ v ns, strProbe hm "new-session" = none →
      strProbe hm "err" = none →
      strProbe hm "out" = none →
      strProbe hm "ex" = none →
      listProbe hm "status" = none →
      strProbe hm "value" = some v →
      strProbe hm "ns" = some ns →
      Response.tryFrom ednRead (BValue.map hm) =
        some (Except.ok (Response.Value v ns 0 ""))) ∧
    (∀ v, strProbe hm "new-session" = none →
      strProbe hm "err" = none →
      strProbe hm "out" = none →
      strProbe hm "ex" = none →
      listProbe hm "status" = none →
      strProbe hm "value" = some v →
      strProbe hm "ns" = none →
      Response.tryFrom ednRead (BValue.map hm) =
        some (Except.error (ReplError.Error
          ("Missing 'ns' in nREPL value-response: " ++ v)))) := by
  refine ⟨?_, ?_, ?_, ?_, ?_, ?_, ?_, ?_⟩
  · intro s h1
    simp only [Response.tryFrom, h1]
  · intro s h1 h2
    simp only [Response.tryFrom, h1, h2]
  · intro s h1 h2 h3
    simp only [Response.tryFrom, h1, h2, h3]
  · intro s h1 h2 h3 h4 h5
    simp only [Response.tryFrom, h1, h2, h3, h4, h5]
  · intro s t h1 h2 h3 h4 h5
    simp only [Response.tryFrom, h1, h2, h3, h4, h5]
    cases parse_exception (ednRead (rustReplace t "#error " "")) <;> rfl
  · intro l h1 h2 h3 h4 h5
    simp only [Response.tryFrom, h1, h2, h3, h4, h5]
  · intro v ns h1 h2 h3 h4 h5 h6 h7
    simp only [Response.tryFrom, h1, h2, h3, h4, h5, h6, h7]
  · intro v h1 h2 h3 h4 h5 h6 h7
    simp only [Response.tryFrom, h1, h2, h3, h4, h5, h6, h7]

/-- Witness for C3: a frame carrying both new-session and err classifies as
NewSession (priority); value with ns classifies as Value; value without ns
is the protocol error. -/
theorem nrepl_response_classification_priority_witness :
    Response.tryFrom (fun _ => none) (BValue.map
      [(BValue.str "new-session", BValue.str "abc"),
       (BValue.str "err", BValue.str "E")]) =
      some (Except.ok (Response.NewSession "abc")) ∧
    Response.tryFrom (fun _ => none) (BValue.map
      [(BValue.str "value", BValue.str "2"),
       (BValue.str "ns", BValue.str "user")]) =
      some (Except.ok (Response.Value "2" "user" 0 "")) ∧
    Response.tryFrom (fun _ => none) (BValue.map
      [(BValue.str "value", BValue.str "2")]) =
      some (Except.error (ReplError.Error
        ("Missing 'ns' in nREPL value-response: " ++ "2"))) :=
  ⟨(nrepl_response_classification_priority (fun _ => none) _).1 "abc"
     (by decide),
   (nrepl_response_classification_priority (fun _ => none) _).2.2.2.2.2.2.1
     "2" "user" (by decide) (by decide) (by decide) (by decide) rfl
     (by decide) (by decide),
   (nrepl_response_classification_priority (fun _ => none) _).2.2.2.2.2.2.2
     "2" (by decide) (by decide) (by decide) (by decide) rfl
     (by decide) (by decide)⟩

theorem buildParams_NewSession_eq (sess : String) (cnt : Nat) :
    (NreplSender.mk sess cnt).buildParams Request.NewSession =
      alInsert (if sess ≠ "" then
          alInsert [(Param.str "op", Param.str "clone")]
            (Param.str "session") (Param.str sess)
        else [(Param.str "op", Param.str "clone")])
        (Param.str "id") (Param.str (String.mk (natChars cnt))) := rfl

theorem buildParams_DisableNsMaps_eq (sess : String) (cnt : Nat) :
    (NreplSender.mk sess cnt).buildParams Request.DisableNsMaps =
      alInsert (if sess ≠ "" then
          alInsert [(Param.str "op", Param.str "eval"),
            (Param.str "code", Param.str "(set! *print-namespace-maps* false)")]
            (Param.str "session") (Param.str sess)
        else [(Param.str "op", Param.str "eval"),
          (Param.str "code", Param.str "(set! *print-namespace-maps* false)")])
        (Param.str "id") (Param.str (String.mk (natChars cnt))) := rfl

theorem buildParams_Eval_eq (sess : String) (cnt : Nat) (p : PMap) :
    (NreplSender.mk sess cnt).buildParams (Request.Eval p) =
      alInsert (if sess ≠ "" then
          alInsert (alInsert p (Param.str "op") (Param.str "eval"))
            (Param.str "session") (Param.str sess)
        else alInsert p (Param.str "op") (Param.str "eval"))
        (Param.str "id") (Param.str (String.mk (natChars cnt))) := rfl

theorem buildParams_Exit_eq (sess : String) (cnt : Nat) :
    (NreplSender.mk sess cnt).buildParams Request.Exit =
      alInsert (if sess ≠ "" then
          alInsert [(Param.str "op", Param.str "close")]
            (Param.str "session") (Param.str sess)
        else [(Param.str "op", Param.str "close")])
        (Param.str "id") (Param.str (String.mk (natChars cnt))) := rfl

theorem buildParams_Interrupt_eq (sess : String) (cnt : Nat) (p : PMap) :
    (NreplSender.mk sess cnt).buildParams (Request.Interrupt p) =
      alInsert (if sess ≠ "" then
          alInsert (alInsert (alInsert p (Param.str "op")
              (Param.str "interrupt"))
            (Param.str "interrupt-id") (Param.str (String.mk (natChars cnt))))
            (Param.str "session") (Param.str sess)
        else alInsert (alInsert p (Param.str "op") (Param.str "interrupt"))
          (Param.str "interrupt-id") (Param.str (String.mk (natChars cnt))))
        (Param.str "id") (Param.str (String.mk (natChars cnt))) := rfl

theorem finish_find_id (sess : String) (cnt : Nat) (base : PMap) :
    alFind (alInsert (if sess ≠ "" then
        alInsert base (Param.str "session") (Param.str sess) else base)
      (Param.str "id") (Param.str (String.mk (natChars cnt))))
      (Param.str "id") = some (Param.str (String.mk (natChars cnt))) :=
  alFind_alInsert_self _ _ _

theorem finish_find_session (sess : String) (cnt : Nat) (base : PMap)
    (h : sess ≠ "") :
    alFind (alInsert (if sess ≠ "" then
        alInsert base (Param.str "session") (Param.str sess) else base)
      (Param.str "id") (Param.str (String.mk (natChars cnt))))
      (Param.str "session") = some (Param.str sess) := by
  rw [alFind_alInsert_ne _ _ _ _
    (by decide : Param.str "session" ≠ Param.str "id"), if_pos h,
    alFind_alInsert_self]

theorem finish_find_other (sess : String) (cnt : Nat) (base : PMap)
    (k : Param) (h1 : k ≠ Param.str "id") (h2 : k ≠ Param.str "session") :
    alFind (alInsert (if sess ≠ "" then
        alInsert base (Param.str "session") (Param.str sess) else base)
      (Param.str "id") (Param.str (String.mk (natChars cnt)))) k =
      alFind base k := by
  rw [alFind_alInsert_ne _ _ _ _ h1]
  by_cases hs : sess ≠ ""
  · rw [if_pos hs, alFind_alInsert_ne _ _ _ _ h2]
  · rw [if_neg hs]

theorem finish_mem (sess : String) (cnt : Nat) (base : PMap) (k : Param) :
    k ∈ alKeys (alInsert (if sess ≠ "" then
        alInsert base (Param.str "session") (Param.str sess) else base)
      (Param.str "id") (Param.str (String.mk (natChars cnt)))) ↔
      (k = Param.str "id" ∨ (sess ≠ "" ∧ k = Param.str "session") ∨
        k ∈ alKeys base) := by
  rw [mem_alKeys_alInsert]
  by_cases hs : sess ≠ ""
  · rw [if_pos hs, mem_alKeys_alInsert]
    tauto
  · rw [if_neg hs]
    tauto

theorem finish_nodup (sess : String) (cnt : Nat) (base : PMap)
    (h : (alKeys base).Nodup) :
    (alKeys (alInsert (if sess ≠ "" then
        alInsert base (Param.str "session") (Param.str sess) else base)
      (Param.str "id") (Param.str (String.mk (natChars cnt))))).Nodup := by
  apply nodup_alKeys_alInsert
  by_cases hs : sess ≠ ""
  · rw [if_pos hs]
    exact nodup_alKeys_alInsert _ _ _ h
  · rw [if_neg hs]
    exact h

/-- Claim C5: for every Request variant, the Framed Backend sender's
encoded frame, decoded by the same framing rules, round-trips to the
dictionary the sender built; that dictionary holds the exact operation
name, the variant's payload keys, exactly one additional `id` key stamped
with the current counter, and one `session` key exactly when a session is
established (never when the session id is empty).  The payload is assumed
not to contain the bookkeeping keys `op`/`id`/`session` — the claim's
"additional" id key presumes them absent — and to have distinct keys, as
a decoded `HashMap` payload always does. -/
theorem nrepl_send_roundtrip_keys (sess : String) (cnt : Nat) (p : PMap)
    (hnod : (alKeys p).Nodup)
    (hsess : Param.str "session" ∉ alKeys p) :
    (∀ req : Request,
      bdec (((NreplSender.mk sess cnt).buildParams req).length + 2)
          (bencL (build_bc_value ((NreplSender.mk sess cnt).buildParams req)))
        = some (build_bc_value ((NreplSender.mk sess cnt).buildParams req),
            [])) ∧
    (alFind ((NreplSender.mk sess cnt).buildParams Request.NewSession)
      (Param.str "op") = some (Param.str "clone")) ∧
    (alFind ((NreplSender.mk sess cnt).buildParams Request.DisableNsMaps)
      (Param.str "op") = some (Param.str "eval")) ∧
    (alFind ((NreplSender.mk sess cnt).buildParams (Request.Eval p))
      (Param.str "op") = some (Param.str "eval")) ∧
    (alFind ((NreplSender.mk sess cnt).buildParams Request.Exit)
      (Param.str "op") = some (Param.str "close")) ∧
    (alFind ((NreplSender.mk sess cnt).buildParams (Request.Interrupt p))
      (Param.str "op") = some (Param.str "interrupt")) ∧
    (∀ req : Request,
      alFind ((NreplSender.mk sess cnt).buildParams req) (Param.str "id") =
        some (Param.str (String.mk (natChars cnt)))) ∧
    (∀ req : Request, sess ≠ "" →
      alFind ((NreplSender.mk sess cnt).buildParams req)
        (Param.str "session") = some (Param.str sess)) ∧
    (∀ k, k ∈ alKeys ((NreplSender.mk sess cnt).buildParams
        Request.NewSession) ↔
      (k = Param.str "op" ∨ k = Param.str "id" ∨
        (sess ≠ "" ∧ k = Param.str "session"))) ∧
    (∀ k, k ∈ alKeys ((NreplSender.mk sess cnt).buildParams
        Request.DisableNsMaps) ↔
      (k = Param.str "op" ∨ k = Param.str "code" ∨ k = Param.str "id" ∨
        (sess ≠ "" ∧ k = Param.str "session"))) ∧
    (∀ k, k ∈ alKeys ((NreplSender.mk sess cnt).buildParams
        (Request.Eval p)) ↔
      (k = Param.str "op" ∨ k ∈ alKeys p ∨ k = Param.str "id" ∨
        (sess ≠ "" ∧ k = Param.str "session"))) ∧
    (∀ k, k ∈ alKeys ((NreplSender.mk sess cnt).buildParams Request.Exit) ↔
      (k = Param.str "op" ∨ k = Param.str "id" ∨
        (sess ≠ "" ∧ k = Param.str "session"))) ∧
    (∀ k, k ∈ alKeys ((NreplSender.mk sess cnt).buildParams
        (Request.Interrupt p)) ↔
      (k = Param.str "op" ∨ k ∈ alKeys p ∨ k = Param.str "interrupt-id" ∨
        k = Param.str "id" ∨ (sess ≠ "" ∧ k = Param.str "session"))) ∧
    ((alKeys ((NreplSender.mk sess cnt).buildParams
        Request.NewSession)).Nodup) ∧
    ((alKeys ((NreplSender.mk sess cnt).buildParams
        Request.DisableNsMaps)).Nodup) ∧
    ((alKeys ((NreplSender.mk sess cnt).buildParams
        (Request.Eval p))).Nodup) ∧
    ((alKeys ((NreplSender.mk sess cnt).buildParams Request.Exit)).Nodup) ∧
    ((alKeys ((NreplSender.mk sess cnt).buildParams
        (Request.Interrupt p))).Nodup) ∧
    (sess = "" →
      ∀ req ∈ [Request.NewSession, Request.DisableNsMaps, Request.Eval p,
        Request.Exit, Request.Interrupt p],
        Param.str "session" ∉
          alKeys ((NreplSender.mk sess cnt).buildParams req)) := by
  refine ⟨?_, ?_, ?_, ?_, ?_, ?_, ?_, ?_, ?_, ?_, ?_, ?_, ?_, ?_, ?_, ?_,
    ?_, ?_, ?_⟩
  · intro req
    have h := bdec_bencL_flatMap 0
      (((NreplSender.mk sess cnt).buildParams req).map
        (fun e => (paramToBc e.1, paramToBc e.2)))
      (build_bc_value_flat _)
    rw [List.length_map] at h
    simpa [build_bc_value] using h
  · rw [buildParams_NewSession_eq,
      finish_find_other _ _ _ _ (by decide) (by decide)]
    decide
  · rw [buildParams_DisableNsMaps_eq,
      finish_find_other _ _ _ _ (by decide) (by decide)]
    decide
  · rw [buildParams_Eval_eq,
      finish_find_other _ _ _ _ (by decide) (by decide),
      alFind_alInsert_self]
  · rw [buildParams_Exit_eq,
      finish_find_other _ _ _ _ (by decide) (by decide)]
    decide
  · rw [buildParams_Interrupt_eq,
      finish_find_other _ _ _ _ (by decide) (by decide),
      alFind_alInsert_ne _ _ _ _ (by decide), alFind_alInsert_self]
  · intro req
    cases req with
    | Eval q => rw [buildParams_Eval_eq]; exact finish_find_id _ _ _
    | Interrupt q => rw [buildParams_Interrupt_eq]; exact finish_find_id _ _ _
    | NewSession => rw [buildParams_NewSession_eq]; exact finish_find_id _ _ _
    | DisableNsMaps =>
      rw [buildParams_DisableNsMaps_eq]; exact finish_find_id _ _ _
    | Exit => rw [buildParams_Exit_eq]; exact finish_find_id _ _ _
  · intro req h
    cases req with
    | Eval q => rw [buildParams_Eval_eq]; exact finish_find_session _ _ _ h
    | Interrupt q =>
      rw [buildParams_Interrupt_eq]; exact finish_find_session _ _ _ h
    | NewSession =>
      rw [buildParams_NewSession_eq]; exact finish_find_session _ _ _ h
    | DisableNsMaps =>
      rw [buildParams_DisableNsMaps_eq]; exact finish_find_session _ _ _ h
    | Exit => rw [buildParams_Exit_eq]; exact finish_find_session _ _ _ h
  · intro k
    rw [buildParams_NewSession_eq, finish_mem]
    simp only [alKeys, List.map_cons, List.map_nil, List.mem_singleton]
    tauto
  · intro k
    rw [buildParams_DisableNsMaps_eq, finish_mem]
    simp only [alKeys, List.map_cons, List.map_nil, List.mem_cons,
      List.mem_singleton, List.not_mem_nil, or_false]
    tauto
  · intro k
    rw [buildParams_Eval_eq, finish_mem, mem_alKeys_alInsert]
    tauto
  · intro k
    rw [buildParams_Exit_eq, finish_mem]
    simp only [alKeys, List.map_cons, List.map_nil, List.mem_singleton]
    tauto
  · intro k
    rw [buildParams_Interrupt_eq, finish_mem, mem_alKeys_alInsert,
      mem_alKeys_alInsert]
    tauto
  · rw [buildParams_NewSession_eq]
    exact finish_nodup _ _ _ (by decide)
  · rw [buildParams_DisableNsMaps_eq]
    exact finish_nodup _ _ _ (by decide)
  · rw [buildParams_Eval_eq]
    exact finish_nodup _ _ _ (nodup_alKeys_alInsert _ _ _ hnod)
  · rw [buildParams_Exit_eq]
    exact finish_nodup _ _ _ (by decide)
  · rw [buildParams_Interrupt_eq]
    exact finish_nodup _ _ _
      (nodup_alKeys_alInsert _ _ _ (nodup_alKeys_alInsert _ _ _ hnod))
  · intro hs req hreq
    simp only [List.mem_cons, List.not_mem_nil, or_false] at hreq
    have hs' : ¬ sess ≠ "" := fun hne => hne hs
    rcases hreq with rfl | rfl | rfl | rfl | rfl
    · intro hmem
      rw [buildParams_NewSession_eq, finish_mem] at hmem
      rcases hmem with h | ⟨hne, _⟩ | hb
      · exact absurd h (by decide)
      · exact hne hs
      · revert hb
        decide
    · intro hmem
      rw [buildParams_DisableNsMaps_eq, finish_mem] at hmem
      rcases hmem with h | ⟨hne, _⟩ | hb
      · exact absurd h (by decide)
      · exact hne hs
      · revert hb
        decide
    · intro hmem
      rw [buildParams_Eval_eq, finish_mem] at hmem
      rcases hmem with h | ⟨hne, _⟩ | hb
      · exact absurd h (by decide)
      · exact hne hs
      · rw [mem_alKeys_alInsert] at hb
        rcases hb with h | hp
        · exact absurd h (by decide)
        · exact hsess hp
    · intro hmem
      rw [buildParams_Exit_eq, finish_mem] at hmem
      rcases hmem with h | ⟨hne, _⟩ | hb
      · exact absurd h (by decide)
      · exact hne hs
      · revert hb
        decide
    · intro hmem
      rw [buildParams_Interrupt_eq, finish_mem] at hmem
      rcases hmem with h | ⟨hne, _⟩ | hb
      · exact absurd h (by decide)
      · exact hne hs
      · rw [mem_alKeys_alInsert, mem_alKeys_alInsert] at hb
        rcases hb with h | h | hp
        · exact absurd h (by decide)
        · exact absurd h (by decide)
        · exact hsess hp

/-- Witness for C5 at a concrete sender (session "S1", counter 7) and the
eval payload `{code: "(+ 1 1)"}`: the frame round-trips through the
framing rules, the operation name is "eval", and the session key is
present. -/
theorem nrepl_send_roundtrip_keys_witness :
    bdec (((NreplSender.mk "S1" 7).buildParams
          (Request.Eval [(Param.str "code", Param.str "(+ 1 1)")])).length + 2)
        (bencL (build_bc_value ((NreplSender.mk "S1" 7).buildParams
          (Request.Eval [(Param.str "code", Param.str "(+ 1 1)")])))) =
      some (build_bc_value ((NreplSender.mk "S1" 7).buildParams
        (Request.Eval [(Param.str "code", Param.str "(+ 1 1)")])), []) ∧
    alFind ((NreplSender.mk "S1" 7).buildParams
        (Request.Eval [(Param.str "code", Param.str "(+ 1 1)")]))
      (Param.str "op") = some (Param.str "eval") ∧
    Param.str "session" ∈ alKeys ((NreplSender.mk "S1" 7).buildParams
      (Request.Eval [(Param.str "code", Param.str "(+ 1 1)")])) := by
  have h := nrepl_send_roundtrip_keys "S1" 7
    [(Param.str "code", Param.str "(+ 1 1)")] (by decide) (by decide)
  refine ⟨h.1 _, h.2.2.2.1, ?_⟩
  exact (h.2.2.2.2.2.2.2.2.2.2.1 (Param.str "session")).mpr
    (Or.inr (Or.inr (Or.inr ⟨by decide, rfl⟩)))
